import Mathlib

/-!
Shallow embedding of the Trading-bot order-execution engine
(`src/bot/orders.py`, `src/bot/client.py`, `src/bot/config.py`).

Modelling conventions:
* Python floats (prices, quantities) are modelled as exact rationals `ℚ`;
  Python ints (durations, intervals, level counts, timestamps, order ids)
  as `Int`.
* Each call to the external exchange (`futures_create_order`,
  `get_symbol_ticker`) is modelled by passing the outcome of that call as
  an explicit argument: `ExchangeResp.ok orderId status` for a normal
  response (the two fields the code reads), `ExchangeResp.err msg` for a
  raised exception with `str(e) = msg`.  Loops that make several calls take
  an oracle `ex : Nat → ExchangeResp` giving the outcome of the i-th call.
* A Python operation that can raise `ZeroDivisionError` is embedded as an
  `Option`-returning function, `none` meaning the exception propagates.
* Functions additionally return the list of `Submission`s actually sent to
  the exchange, so that claims about what was (or was not) submitted are
  statable.
* `datetime.now()` timestamps are not referenced by any claim and are
  omitted from `OrderResult`; `int(time.time())` used in strategy ids is
  passed in as an argument `now : Int`.
-/

namespace TradingBot

/-- Embedding of Python `str` on a natural number (decimal digits). -/
def pyStrOfNat (n : Nat) : String :=
  ⟨Nat.toDigits 10 n⟩

/-- Embedding of Python `str` on an integer. -/
def pyStrOfInt : Int → String
  | Int.ofNat m => pyStrOfNat m
  | Int.negSucc m => "-" ++ pyStrOfNat (m + 1)

/-- Embedding of Python's two-argument `min` (used at `orders.py` line
244): the first argument when it is `≤` the second. -/
def pymin (x y : ℚ) : ℚ := if x ≤ y then x else y

/-- `OrderResult` dataclass (`orders.py` lines 13-23); the `timestamp`
field (`datetime.now()`) is omitted, no claim mentions it. -/
structure OrderResult where
  order_id : String
  symbol : String
  side : String
  order_type : String
  quantity : ℚ
  price : Option ℚ
  status : String
  error_message : Option String := none
  deriving Repr, DecidableEq

/-- Outcome of one call to the external exchange: a normal response
(the `orderId` and `status` fields the code reads) or a raised
exception whose `str(e)` is `msg`.  The two `except` branches of each
placement function build identical results, so one error constructor
covers both `BinanceOrderException` and `Exception`. -/
inductive ExchangeResp where
  | ok (orderId : Int) (status : String)
  | err (msg : String)
  deriving Repr, DecidableEq

/-- One request actually sent to `futures_create_order`: the keyword
arguments the code passes. -/
structure Submission where
  symbol : String
  side : String
  otype : String
  quantity : ℚ
  price : Option ℚ := none
  stopPrice : Option ℚ := none
  deriving Repr, DecidableEq

/-- `OrderSide` / `OrderType` enum values used by the engine
(`config.py`). -/
def MARKET : String := "MARKET"
def LIMIT : String := "LIMIT"
def BUY : String := "BUY"
def SELL : String := "SELL"

/-- `OrderManager.place_market_order` (`orders.py` lines 32-81), as a
function of the exchange outcome `resp`. -/
def place_market_order (resp : ExchangeResp) (symbol side : String)
    (quantity : ℚ) : OrderResult :=
  match resp with
  | ExchangeResp.ok orderId status =>
      { order_id := pyStrOfInt orderId, symbol := symbol, side := side
        order_type := MARKET, quantity := quantity, price := none
        status := status, error_message := none }
  | ExchangeResp.err msg =>
      { order_id := "", symbol := symbol, side := side
        order_type := MARKET, quantity := quantity, price := none
        status := "FAILED", error_message := some msg }

/-- The submission `place_market_order` sends (lines 36-41). -/
def marketSubmission (symbol side : String) (quantity : ℚ) : Submission :=
  { symbol := symbol, side := side, otype := MARKET, quantity := quantity }

/-- `OrderManager.place_limit_order` (`orders.py` lines 83-134). -/
def place_limit_order (resp : ExchangeResp) (symbol side : String)
    (quantity price : ℚ) : OrderResult :=
  match resp with
  | ExchangeResp.ok orderId status =>
      { order_id := pyStrOfInt orderId, symbol := symbol, side := side
        order_type := LIMIT, quantity := quantity, price := some price
        status := status, error_message := none }
  | ExchangeResp.err msg =>
      { order_id := "", symbol := symbol, side := side
        order_type := LIMIT, quantity := quantity, price := some price
        status := "FAILED", error_message := some msg }

/-- The submission `place_limit_order` sends (lines 87-94). -/
def limitSubmission (symbol side : String) (quantity price : ℚ) : Submission :=
  { symbol := symbol, side := side, otype := LIMIT, quantity := quantity
    price := some price }

/-- Value stored in `self.active_orders[limit_order.order_id]` by
`place_oco_order` (lines 185-192). -/
structure OcoMeta where
  otype : String
  stop_price : ℚ
  stop_limit_price : ℚ
  symbol : String
  side : String
  quantity : ℚ
  deriving Repr, DecidableEq

/-- `OrderManager.place_oco_order` (`orders.py` lines 177-208).
`active_orders` is the manager's `self.active_orders` dict, modelled as
an association list; the dict store is an append.  The surrounding
`try/except` is dead in this embedding because `place_limit_order`
already returns (never raises) and a dict assignment cannot fail.
Returns the result handed to the caller, the updated `active_orders`,
and the submissions made to the exchange. -/
def place_oco_order (resp : ExchangeResp) (symbol side : String)
    (quantity price stop_price stop_limit_price : ℚ)
    (active_orders : List (String × OcoMeta)) :
    OrderResult × List (String × OcoMeta) × List Submission :=
  let limit_order := place_limit_order resp symbol side quantity price
  let active' :=
    if limit_order.status ≠ "FAILED" then
      active_orders ++ [(limit_order.order_id,
        { otype := "OCO", stop_price := stop_price
          stop_limit_price := stop_limit_price, symbol := symbol
          side := side, quantity := quantity })]
    else active_orders
  (limit_order, active', [limitSubmission symbol side quantity price])

/-- One entry of `self.twap_orders` (`orders.py` lines 214-224); the
`start_time` field (`datetime.now()`) is omitted, no claim mentions it. -/
structure TwapOrder where
  symbol : String
  side : String
  total_quantity : ℚ
  remaining_quantity : ℚ
  duration_minutes : Int
  interval_seconds : Int
  orders : List OrderResult
  active : Bool
  deriving Repr, DecidableEq

/-- `OrderManager.start_twap_order` (`orders.py` lines 210-229): builds
the id `f"twap_{symbol}_{int(time.time())}"`, registers the entry in
`self.twap_orders`, launches the background thread and returns the id.
Modelled as returning the id together with the registered entry; the
background execution itself is `execute_twap` below.  `now` is
`int(time.time())`. -/
def start_twap_order (symbol side : String) (total_quantity : ℚ)
    (duration_minutes interval_seconds : Int) (now : Int) :
    String × TwapOrder :=
  let twap_id := "twap_" ++ symbol ++ "_" ++ pyStrOfInt now
  (twap_id,
   { symbol := symbol, side := side
     total_quantity := total_quantity
     remaining_quantity := total_quantity
     duration_minutes := duration_minutes
     interval_seconds := interval_seconds
     orders := [], active := true })

/-- Outcome of a TWAP run: the final strategy state, the intermediate
state after each loop iteration (so invariants "at every point" are
statable), and the submissions sent to the exchange. -/
structure TwapRun where
  final : TwapOrder
  states : List TwapOrder
  subs : List Submission
  deriving Repr

/-- The body of one `_execute_twap` loop iteration (`orders.py` lines
244-253): compute `order_quantity = min(quantity_per_interval,
remaining_quantity)`, place the market order, append the result and
decrement `remaining_quantity`. -/
def twapNext (resp : ExchangeResp) (quantity_per_interval : ℚ)
    (st : TwapOrder) : TwapOrder :=
  let order_quantity := pymin quantity_per_interval st.remaining_quantity
  let result := place_market_order resp st.symbol st.side order_quantity
  { st with
    orders := st.orders ++ [result]
    remaining_quantity := st.remaining_quantity - order_quantity }

/-- The `for i in range(total_intervals)` loop of `_execute_twap`
(`orders.py` lines 237-257).  `fuel` is the number of iterations left,
`i` indexes the oracle call; the two `break` tests (lines 238-242)
mirror the source.  `time.sleep` is a no-op here. -/
def twapLoop (ex : Nat → ExchangeResp) (quantity_per_interval : ℚ) :
    Nat → Nat → TwapOrder → TwapRun
  | 0, _, st => { final := st, states := [], subs := [] }
  | fuel + 1, i, st =>
    if st.active = false then { final := st, states := [], subs := [] }
    else if st.remaining_quantity ≤ 0 then
      { final := st, states := [], subs := [] }
    else
      let st' := twapNext (ex i) quantity_per_interval st
      let rest := twapLoop ex quantity_per_interval fuel (i + 1) st'
      { final := rest.final
        states := st' :: rest.states
        subs := marketSubmission st.symbol st.side
          (pymin quantity_per_interval st.remaining_quantity) :: rest.subs }

/-- `OrderManager._execute_twap` (`orders.py` lines 231-260).
`total_intervals = (duration_minutes * 60) // interval_seconds` is
Python floor division (`Int.fdiv`); it raises `ZeroDivisionError` when
`interval_seconds == 0`, and the subsequent
`quantity_per_interval = total_quantity / total_intervals` raises
`ZeroDivisionError` when `total_intervals == 0` — both modelled as
`none` (the exception kills the thread before line 259, so `active`
is never reset).  `range` of a negative int is empty, hence
`total_intervals.toNat`. -/
def execute_twap (ex : Nat → ExchangeResp) (st : TwapOrder) :
    Option TwapRun :=
  if st.interval_seconds = 0 then none
  else
    let total_intervals := (st.duration_minutes * 60).fdiv st.interval_seconds
    if total_intervals = 0 then none
    else
      let quantity_per_interval := st.total_quantity / (total_intervals : ℚ)
      let run := twapLoop ex quantity_per_interval total_intervals.toNat 0 st
      some { run with final := { run.final with active := false } }

/-- Sum of the `quantity` fields of a list of results. -/
def ordersQuantitySum (l : List OrderResult) : ℚ :=
  (l.map OrderResult.quantity).sum

/-- The TWAP accounting invariant of the spec: executed slice
quantities plus remaining quantity equal the total. -/
def twapInvariant (st : TwapOrder) : Prop :=
  ordersQuantitySum st.orders + st.remaining_quantity = st.total_quantity

/-- Outcome of one call to `get_symbol_ticker` as used by
`BinanceClient.get_current_price`: a parsed price or a raised
exception. -/
inductive TickerResp where
  | ok (price : ℚ)
  | err (msg : String)
  deriving Repr, DecidableEq

/-- `BinanceClient.get_current_price` (`client.py` lines 33-39): the
ticker price on success, `0.0` when the underlying call raises. -/
def get_current_price : TickerResp → ℚ
  | TickerResp.ok price => price
  | TickerResp.err _ => 0

/-- One entry of `self.grid_orders` (`orders.py` lines 280-290). -/
structure GridOrder where
  symbol : String
  lower_price : ℚ
  upper_price : ℚ
  grid_levels : Int
  quantity_per_level : ℚ
  buy_levels : List ℚ
  sell_levels : List ℚ
  active_orders : List OrderResult
  active : Bool
  deriving Repr, DecidableEq

/-- `price_step = (upper_price - lower_price) / (grid_levels - 1)`
(`orders.py` line 266). -/
def price_step (lower_price upper_price : ℚ) (grid_levels : Int) : ℚ :=
  (upper_price - lower_price) / ((grid_levels - 1 : Int) : ℚ)

/-- The level prices generated by the loop at `orders.py` lines 272-273:
`lower_price + i * step` for `i in range(grid_levels)`. -/
def gridLevelPrices (lower_price step : ℚ) (grid_levels : Int) :
    List ℚ :=
  (List.range grid_levels.toNat).map fun i : Nat => lower_price + (i : ℚ) * step

/-- The `self.grid_orders[grid_id]` entry registered at `orders.py`
lines 280-290, with `buy_levels`/`sell_levels` from the classification
loop of lines 272-278: each level goes to `buy_levels` when
`level_price < current_price` and to `sell_levels` otherwise, an
order-preserving partition of the generated level prices. -/
def gridRegistered (ticker : TickerResp) (symbol : String)
    (lower_price upper_price : ℚ) (grid_levels : Int)
    (quantity_per_level : ℚ) : GridOrder :=
  let current_price := get_current_price ticker
  let levels := gridLevelPrices lower_price
    (price_step lower_price upper_price grid_levels) grid_levels
  let bs := levels.partition (fun p => p < current_price)
  { symbol := symbol, lower_price := lower_price
    upper_price := upper_price, grid_levels := grid_levels
    quantity_per_level := quantity_per_level
    buy_levels := bs.1, sell_levels := bs.2
    active_orders := [], active := true }

/-- One `for price in ...` placement loop of `_place_grid_orders`
(`orders.py` lines 300-308 and 310-318): place a limit order per price,
keeping only results with `status != "FAILED"`; `i` indexes the oracle
call.  Returns the kept results and all submissions made. -/
def placeLevelOrders (ex : Nat → ExchangeResp) (symbol side : String)
    (quantity_per_level : ℚ) : Nat → List ℚ →
    List OrderResult × List Submission
  | _, [] => ([], [])
  | i, price :: rest =>
    let result := place_limit_order (ex i) symbol side quantity_per_level price
    let rest' := placeLevelOrders ex symbol side quantity_per_level (i + 1) rest
    ((if result.status ≠ "FAILED" then [result] else []) ++ rest'.1,
     limitSubmission symbol side quantity_per_level price :: rest'.2)

/-- The full list of results returned by one placement loop of
`_place_grid_orders`, kept or not (the loop computes `result` for
every level regardless of earlier failures). -/
def levelResults (ex : Nat → ExchangeResp) (symbol side : String)
    (quantity_per_level : ℚ) : Nat → List ℚ → List OrderResult
  | _, [] => []
  | i, price :: rest =>
    place_limit_order (ex i) symbol side quantity_per_level price ::
      levelResults ex symbol side quantity_per_level (i + 1) rest

/-- `OrderManager._place_grid_orders` (`orders.py` lines 297-318): all
buy levels first, then all sell levels; non-FAILED results are appended
to `active_orders`. -/
def place_grid_orders (ex : Nat → ExchangeResp) (g : GridOrder) :
    GridOrder × List Submission :=
  let buyRes :=
    placeLevelOrders ex g.symbol BUY g.quantity_per_level 0 g.buy_levels
  let sellRes :=
    placeLevelOrders ex g.symbol SELL g.quantity_per_level
      g.buy_levels.length g.sell_levels
  ({ g with active_orders := g.active_orders ++ buyRes.1 ++ sellRes.1 },
   buyRes.2 ++ sellRes.2)

/-- `OrderManager.start_grid_strategy` (`orders.py` lines 262-295).
`price_step = (upper - lower) / (grid_levels - 1)` raises
`ZeroDivisionError` when `grid_levels == 1` (modelled as `none`).
Returns the id, the registered entry after the synchronous placement,
and the submissions. -/
def start_grid_strategy (ticker : TickerResp) (ex : Nat → ExchangeResp)
    (symbol : String) (lower_price upper_price : ℚ) (grid_levels : Int)
    (quantity_per_level : ℚ) (now : Int) :
    Option (String × GridOrder × List Submission) :=
  let grid_id := "grid_" ++ symbol ++ "_" ++ pyStrOfInt now
  if grid_levels = 1 then none
  else
    let g := gridRegistered ticker symbol lower_price upper_price
      grid_levels quantity_per_level
    let gs := place_grid_orders ex g
    some (grid_id, gs.1, gs.2)

/-- The registered TWAP entry of the spec scenario
`start_twap("BTCUSDT", "BUY", total_quantity=1.0, duration=5min,
interval=60s)`. -/
def twapScenarioState : TwapOrder :=
  { symbol := "BTCUSDT", side := "BUY", total_quantity := 1
    remaining_quantity := 1, duration_minutes := 5, interval_seconds := 60
    orders := [], active := true }

/-! ## Helper lemmas -/

theorem place_market_order_quantity (resp : ExchangeResp) (s sd : String)
    (q : ℚ) : (place_market_order resp s sd q).quantity = q := by
  cases resp <;> rfl

theorem execute_twap_eq_none (ex : Nat → ExchangeResp) (st : TwapOrder)
    (h : (st.duration_minutes * 60).fdiv st.interval_seconds = 0) :
    execute_twap ex st = none := by
  unfold execute_twap
  by_cases hi : st.interval_seconds = 0
  · simp [hi]
  · simp [hi, h]

theorem twapLoop_zero (ex : Nat → ExchangeResp) (qpi : ℚ) (i : Nat)
    (st : TwapOrder) :
    twapLoop ex qpi 0 i st = { final := st, states := [], subs := [] } := rfl

theorem twapLoop_break_active (ex : Nat → ExchangeResp) (qpi : ℚ)
    (fuel i : Nat) (st : TwapOrder) (h : st.active = false) :
    twapLoop ex qpi (fuel + 1) i st =
      { final := st, states := [], subs := [] } := by
  simp [twapLoop, h]

theorem twapLoop_break_rem (ex : Nat → ExchangeResp) (qpi : ℚ)
    (fuel i : Nat) (st : TwapOrder) (h : st.remaining_quantity ≤ 0) :
    twapLoop ex qpi (fuel + 1) i st =
      { final := st, states := [], subs := [] } := by
  by_cases hA : st.active = false
  · simp [twapLoop, hA]
  · simp [twapLoop, hA, h]

theorem twapLoop_succ (ex : Nat → ExchangeResp) (qpi : ℚ) (fuel i : Nat)
    (st : TwapOrder) (hA : st.active = true)
    (hR : 0 < st.remaining_quantity) :
    twapLoop ex qpi (fuel + 1) i st =
      { final := (twapLoop ex qpi fuel (i + 1) (twapNext (ex i) qpi st)).final
        states := twapNext (ex i) qpi st ::
          (twapLoop ex qpi fuel (i + 1) (twapNext (ex i) qpi st)).states
        subs := marketSubmission st.symbol st.side (pymin qpi st.remaining_quantity) ::
          (twapLoop ex qpi fuel (i + 1) (twapNext (ex i) qpi st)).subs } := by
  have h1 : ¬ (st.active = false) := by simp [hA]
  have h2 : ¬ (st.remaining_quantity ≤ 0) := not_le.mpr hR
  simp [twapLoop, h1, h2]

theorem twapNext_invariant (resp : ExchangeResp) (qpi : ℚ) (st : TwapOrder)
    (h : twapInvariant st) : twapInvariant (twapNext resp qpi st) := by
  unfold twapInvariant ordersQuantitySum at h ⊢
  simp only [twapNext, List.map_append, List.sum_append, List.map_cons,
    List.map_nil, List.sum_cons, List.sum_nil, place_market_order_quantity]
  linarith

theorem twapLoop_invariant (ex : Nat → ExchangeResp) (qpi : ℚ) :
    ∀ (fuel i : Nat) (st : TwapOrder), twapInvariant st →
      twapInvariant (twapLoop ex qpi fuel i st).final ∧
      ∀ s ∈ (twapLoop ex qpi fuel i st).states, twapInvariant s := by
  intro fuel
  induction fuel with
  | zero =>
    intro i st h
    refine ⟨h, ?_⟩
    intro s hs
    simp [twapLoop_zero] at hs
  | succ n ih =>
    intro i st h
    by_cases hA : st.active = false
    · rw [twapLoop_break_active ex qpi n i st hA]
      exact ⟨h, by intro s hs; simp at hs⟩
    · by_cases hR : st.remaining_quantity ≤ 0
      · rw [twapLoop_break_rem ex qpi n i st hR]
        exact ⟨h, by intro s hs; simp at hs⟩
      · have hA' : st.active = true := by
          cases hact : st.active
          · exact absurd hact hA
          · rfl
        rw [twapLoop_succ ex qpi n i st hA' (not_le.mp hR)]
        have hst' : twapInvariant (twapNext (ex i) qpi st) :=
          twapNext_invariant (ex i) qpi st h
        obtain ⟨hf, hs⟩ := ih (i + 1) (twapNext (ex i) qpi st) hst'
        refine ⟨hf, ?_⟩
        intro s hmem
        simp only [List.mem_cons] at hmem
        rcases hmem with rfl | hmem
        · exact hst'
        · exact hs s hmem

theorem twapInvariant_active_update (st : TwapOrder) (b : Bool) :
    twapInvariant { st with active := b } ↔ twapInvariant st := Iff.rfl

theorem twapLoop_subs_length_le (ex : Nat → ExchangeResp) (qpi : ℚ) :
    ∀ (fuel i : Nat) (st : TwapOrder),
      (twapLoop ex qpi fuel i st).subs.length ≤ fuel := by
  intro fuel
  induction fuel with
  | zero => intro i st; simp [twapLoop_zero]
  | succ n ih =>
    intro i st
    by_cases hA : st.active = false
    · rw [twapLoop_break_active ex qpi n i st hA]; simp
    · by_cases hR : st.remaining_quantity ≤ 0
      · rw [twapLoop_break_rem ex qpi n i st hR]; simp
      · have hA' : st.active = true := by
          cases hact : st.active
          · exact absurd hact hA
          · rfl
        rw [twapLoop_succ ex qpi n i st hA' (not_le.mp hR)]
        simpa using ih (i + 1) (twapNext (ex i) qpi st)

theorem twapLoop_subs_shape (ex : Nat → ExchangeResp) (qpi : ℚ) :
    ∀ (fuel i : Nat) (st : TwapOrder),
      ∀ sub ∈ (twapLoop ex qpi fuel i st).subs,
        sub.otype = MARKET ∧ sub.price = none := by
  intro fuel
  induction fuel with
  | zero => intro i st sub hs; simp [twapLoop_zero] at hs
  | succ n ih =>
    intro i st sub hs
    by_cases hA : st.active = false
    · rw [twapLoop_break_active ex qpi n i st hA] at hs; simp at hs
    · by_cases hR : st.remaining_quantity ≤ 0
      · rw [twapLoop_break_rem ex qpi n i st hR] at hs; simp at hs
      · have hA' : st.active = true := by
          cases hact : st.active
          · exact absurd hact hA
          · rfl
        rw [twapLoop_succ ex qpi n i st hA' (not_le.mp hR)] at hs
        simp only [List.mem_cons] at hs
        rcases hs with rfl | hs
        · exact ⟨rfl, rfl⟩
        · exact ih (i + 1) (twapNext (ex i) qpi st) sub hs

theorem twapLoop_orders_length (ex : Nat → ExchangeResp) (qpi : ℚ) :
    ∀ (fuel i : Nat) (st : TwapOrder),
      (twapLoop ex qpi fuel i st).final.orders.length =
        st.orders.length + (twapLoop ex qpi fuel i st).subs.length := by
  intro fuel
  induction fuel with
  | zero => intro i st; simp [twapLoop_zero]
  | succ n ih =>
    intro i st
    by_cases hA : st.active = false
    · rw [twapLoop_break_active ex qpi n i st hA]; simp
    · by_cases hR : st.remaining_quantity ≤ 0
      · rw [twapLoop_break_rem ex qpi n i st hR]; simp
      · have hA' : st.active = true := by
          cases hact : st.active
          · exact absurd hact hA
          · rfl
        rw [twapLoop_succ ex qpi n i st hA' (not_le.mp hR)]
        have h1 := ih (i + 1) (twapNext (ex i) qpi st)
        simp only [List.length_cons, h1]
        have h2 : (twapNext (ex i) qpi st).orders.length =
            st.orders.length + 1 := by
          simp [twapNext]
        omega

theorem twapNext_remaining (resp : ExchangeResp) (qpi : ℚ) (st : TwapOrder) :
    (twapNext resp qpi st).remaining_quantity =
      st.remaining_quantity - pymin qpi st.remaining_quantity := rfl

theorem twapNext_active (resp : ExchangeResp) (qpi : ℚ) (st : TwapOrder) :
    (twapNext resp qpi st).active = st.active := rfl

theorem marketSubmission_quantity (s sd : String) (q : ℚ) :
    (marketSubmission s sd q).quantity = q := rfl

theorem execute_twap_eq_some (ex : Nat → ExchangeResp) (st : TwapOrder)
    (h1 : ¬ st.interval_seconds = 0)
    (h2 : ¬ (st.duration_minutes * 60).fdiv st.interval_seconds = 0) :
    execute_twap ex st = some
      { final := { (twapLoop ex
            (st.total_quantity /
              (((st.duration_minutes * 60).fdiv st.interval_seconds : Int) : ℚ))
            ((st.duration_minutes * 60).fdiv st.interval_seconds).toNat 0
            st).final with active := false }
        states := (twapLoop ex
            (st.total_quantity /
              (((st.duration_minutes * 60).fdiv st.interval_seconds : Int) : ℚ))
            ((st.duration_minutes * 60).fdiv st.interval_seconds).toNat 0
            st).states
        subs := (twapLoop ex
            (st.total_quantity /
              (((st.duration_minutes * 60).fdiv st.interval_seconds : Int) : ℚ))
            ((st.duration_minutes * 60).fdiv st.interval_seconds).toNat 0
            st).subs } := by
  unfold execute_twap
  simp [h1, h2]

/-- A TWAP run whose remaining quantity is an exact multiple `k * qpi` of
the slice quantity executes exactly `k` slices of `qpi` each, the
remaining quantity stepping down through `(k-1)*qpi, ..., 1*qpi, 0`. -/
theorem twapLoop_exact (ex : Nat → ExchangeResp) (qpi : ℚ) (hq : 0 < qpi) :
    ∀ (k i : Nat) (st : TwapOrder), st.active = true →
      st.remaining_quantity = (k : ℚ) * qpi →
      (twapLoop ex qpi k i st).states.map TwapOrder.remaining_quantity =
        (List.range k).reverse.map (fun j : Nat => (j : ℚ) * qpi) ∧
      (twapLoop ex qpi k i st).subs.map Submission.quantity =
        List.replicate k qpi ∧
      (twapLoop ex qpi k i st).final.remaining_quantity = 0 := by
  intro k
  induction k with
  | zero =>
    intro i st hA hR
    simp [twapLoop_zero, hR]
  | succ n ih =>
    intro i st hA hR
    have hcast : ((n + 1 : Nat) : ℚ) = (n : ℚ) + 1 := by push_cast; ring
    have hn0 : (0 : ℚ) ≤ (n : ℚ) := Nat.cast_nonneg n
    have hpos : 0 < st.remaining_quantity := by
      rw [hR, hcast]
      have h1 : (0 : ℚ) < (n : ℚ) + 1 := by linarith
      exact mul_pos h1 hq
    rw [twapLoop_succ ex qpi n i st hA hpos]
    have hmin : pymin qpi st.remaining_quantity = qpi := by
      unfold pymin
      rw [if_pos]
      rw [hR, hcast]
      nlinarith
    have hrem' : (twapNext (ex i) qpi st).remaining_quantity = (n : ℚ) * qpi := by
      rw [twapNext_remaining, hmin, hR, hcast]
      ring
    have hact' : (twapNext (ex i) qpi st).active = true := by
      rw [twapNext_active]; exact hA
    obtain ⟨h1, h2, h3⟩ := ih (i + 1) (twapNext (ex i) qpi st) hact' hrem'
    refine ⟨?_, ?_, h3⟩
    · simp only [List.map_cons, h1, hrem', List.range_succ,
        List.reverse_append, List.reverse_cons, List.reverse_nil,
        List.nil_append, List.cons_append, List.map_cons]
    · simp only [List.map_cons, h2, marketSubmission_quantity, hmin,
        List.replicate_succ]

/-! ## Claim theorems: TWAP (C1-C4) -/


theorem twap_scenario_run (ex : Nat → ExchangeResp) :
    (execute_twap ex twapScenarioState).map
      (fun run => (run.states.map TwapOrder.remaining_quantity,
                   run.subs.map Submission.quantity,
                   run.final.active)) =
    some ([4/5, 3/5, 2/5, 1/5, 0], [1/5, 1/5, 1/5, 1/5, 1/5], false) := by
  rw [execute_twap_eq_some ex twapScenarioState (by decide) (by decide)]
  have hfd : ((twapScenarioState.duration_minutes * 60).fdiv
      twapScenarioState.interval_seconds) = 5 := by decide
  rw [hfd]
  have hqpi : twapScenarioState.total_quantity / ((5 : Int) : ℚ) = 1/5 := by
    show (1 : ℚ) / ((5 : Int) : ℚ) = 1/5
    norm_num
  rw [hqpi]
  obtain ⟨hstates, hsubs, _⟩ := twapLoop_exact ex (1/5) (by norm_num) 5 0
    twapScenarioState rfl (by show (1:ℚ) = _; push_cast; norm_num)
  show some _ = some _
  rw [Option.some.injEq]
  refine Prod.ext ?_ (Prod.ext ?_ ?_)
  · show (twapLoop ex (1/5) (Int.toNat 5) 0 twapScenarioState).states.map
      TwapOrder.remaining_quantity = _
    rw [show Int.toNat 5 = 5 from rfl, hstates]
    norm_num [List.range_succ]
  · show (twapLoop ex (1/5) (Int.toNat 5) 0 twapScenarioState).subs.map
      Submission.quantity = _
    rw [show Int.toNat 5 = 5 from rfl, hsubs]
    rfl
  · rfl



/-- C1 -/
theorem twap_zero_slice_count_divides_by_zero :
    (∀ (ex : Nat → ExchangeResp) (st : TwapOrder),
       (st.duration_minutes * 60).fdiv st.interval_seconds = 0 →
       execute_twap ex st = none) ∧
    (∀ ex : Nat → ExchangeResp,
       execute_twap ex (start_twap_order "BTCUSDT" "BUY" 1 1 120 0).2 = none) := by
  constructor
  · intro ex st h
    exact execute_twap_eq_none ex st h
  · intro ex
    exact execute_twap_eq_none ex _ (by decide)

theorem twap_zero_slice_witness :
    execute_twap (fun _ => ExchangeResp.ok 1 "NEW")
      (start_twap_order "BTCUSDT" "BUY" 1 1 120 0).2 = none :=
  twap_zero_slice_count_divides_by_zero.2 (fun _ => ExchangeResp.ok 1 "NEW")

/-- C2 counterexample -/
theorem twap_start_no_validation_counterexample :
    (start_twap_order "BTCUSDT" "BUY" (-1) 0 0 7).1 = "twap_BTCUSDT_7" ∧
    (start_twap_order "BTCUSDT" "BUY" (-1) 0 0 7).2.active = true ∧
    (start_twap_order "BTCUSDT" "BUY" (-1) 0 0 7).2.total_quantity = -1 ∧
    (start_twap_order "BTCUSDT" "BUY" (-1) 0 0 7).2.duration_minutes = 0 ∧
    (start_twap_order "BTCUSDT" "BUY" (-1) 0 0 7).2.interval_seconds = 0 ∧
    (start_twap_order "BTCUSDT" "BUY" (-1) 0 0 7).2.orders = [] :=
  ⟨rfl, rfl, rfl, rfl, rfl, rfl⟩

/-- C2 amended -/
theorem twap_start_no_validation :
    (∀ (symbol side : String) (q : ℚ) (dm is now : Int),
       (start_twap_order symbol side q dm is now).1 =
         "twap_" ++ symbol ++ "_" ++ pyStrOfInt now ∧
       (start_twap_order symbol side q dm is now).2 =
         { symbol := symbol, side := side, total_quantity := q
           remaining_quantity := q, duration_minutes := dm
           interval_seconds := is, orders := [], active := true }) ∧
    (∀ (ex : Nat → ExchangeResp) (symbol side : String) (q : ℚ) (dm is now : Int),
       (dm * 60).fdiv is = 0 →
       execute_twap ex (start_twap_order symbol side q dm is now).2 = none) := by
  constructor
  · intro symbol side q dm is now
    exact ⟨rfl, rfl⟩
  · intro ex symbol side q dm is now h
    exact execute_twap_eq_none ex _ h

theorem twap_start_no_validation_witness :
    execute_twap (fun _ => ExchangeResp.ok 1 "NEW")
      (start_twap_order "BTCUSDT" "BUY" 1 5 0 3).2 = none :=
  twap_start_no_validation.2 (fun _ => ExchangeResp.ok 1 "NEW")
    "BTCUSDT" "BUY" 1 5 0 3 (by decide)

/-- C3 -/
theorem twap_quantity_invariant :
    (∀ (symbol side : String) (q : ℚ) (dm is now : Int),
       twapInvariant (start_twap_order symbol side q dm is now).2) ∧
    (∀ (ex : Nat → ExchangeResp) (qpi : ℚ) (fuel i : Nat) (st : TwapOrder),
       twapInvariant st →
       twapInvariant (twapLoop ex qpi fuel i st).final ∧
       ∀ s ∈ (twapLoop ex qpi fuel i st).states, twapInvariant s) ∧
    (∀ (ex : Nat → ExchangeResp) (st : TwapOrder) (run : TwapRun),
       execute_twap ex st = some run → twapInvariant st →
       twapInvariant run.final ∧ ∀ s ∈ run.states, twapInvariant s) ∧
    (∀ (ex : Nat → ExchangeResp) (qpi : ℚ) (fuel i : Nat) (st : TwapOrder),
       st.active = true → 0 < st.remaining_quantity →
       (twapLoop ex qpi (fuel + 1) i st).states.head? =
         some (twapNext (ex i) qpi st) ∧
       (twapLoop ex qpi (fuel + 1) i st).subs.head? =
         some (marketSubmission st.symbol st.side
           (pymin qpi st.remaining_quantity)) ∧
       (twapNext (ex i) qpi st).remaining_quantity =
         st.remaining_quantity - pymin qpi st.remaining_quantity ∧
       (twapNext (ex i) qpi st).orders =
         st.orders ++ [place_market_order (ex i) st.symbol st.side
           (pymin qpi st.remaining_quantity)]) := by
  refine ⟨?_, ?_, ?_, ?_⟩
  · intro symbol side q dm is now
    simp [twapInvariant, ordersQuantitySum, start_twap_order]
  · intro ex qpi fuel i st h
    exact twapLoop_invariant ex qpi fuel i st h
  · intro ex st run hrun hinv
    by_cases h1 : st.interval_seconds = 0
    · unfold execute_twap at hrun
      rw [if_pos h1] at hrun
      cases hrun
    · by_cases h2 : (st.duration_minutes * 60).fdiv st.interval_seconds = 0
      · rw [execute_twap_eq_none ex st h2] at hrun
        exact absurd hrun (by simp)
      · rw [execute_twap_eq_some ex st h1 h2] at hrun
        obtain ⟨hf, hs⟩ := twapLoop_invariant ex _ _ 0 st hinv
        cases hrun
        exact ⟨hf, hs⟩
  · intro ex qpi fuel i st hA hR
    rw [twapLoop_succ ex qpi fuel i st hA hR]
    exact ⟨rfl, rfl, rfl, rfl⟩

theorem twap_quantity_invariant_witness :
    twapInvariant ((twapLoop (fun j => ExchangeResp.ok (Int.ofNat j) "NEW")
      (1/5) 5 0 (start_twap_order "BTCUSDT" "BUY" 1 5 60 0).2).final) :=
  (twap_quantity_invariant.2.1 (fun j => ExchangeResp.ok (Int.ofNat j) "NEW")
    (1/5) 5 0 (start_twap_order "BTCUSDT" "BUY" 1 5 60 0).2
    (twap_quantity_invariant.1 "BTCUSDT" "BUY" 1 5 60 0)).1


/-- C4 -/
theorem twap_slicing_schedule :
    (∀ (ex : Nat → ExchangeResp) (st : TwapOrder),
       st.interval_seconds ≠ 0 →
       (st.duration_minutes * 60).fdiv st.interval_seconds ≠ 0 →
       ∀ run, execute_twap ex st = some run →
         run.subs.length ≤
           ((st.duration_minutes * 60).fdiv st.interval_seconds).toNat ∧
         (∀ sub ∈ run.subs, sub.otype = MARKET ∧ sub.price = none) ∧
         run.final.orders.length = st.orders.length + run.subs.length ∧
         run.final.active = false) ∧
    (∀ (ex : Nat → ExchangeResp) (now : Int),
       (execute_twap ex (start_twap_order "BTCUSDT" "BUY" 1 5 60 now).2).map
         (fun run => (run.states.map TwapOrder.remaining_quantity,
                      run.subs.map Submission.quantity,
                      run.final.active)) =
       some ([4/5, 3/5, 2/5, 1/5, 0], [1/5, 1/5, 1/5, 1/5, 1/5], false)) := by
  constructor
  · intro ex st h1 h2 run hrun
    rw [execute_twap_eq_some ex st h1 h2] at hrun
    cases hrun
    refine ⟨?_, ?_, ?_, rfl⟩
    · exact twapLoop_subs_length_le ex _ _ 0 st
    · exact twapLoop_subs_shape ex _ _ 0 st
    · simpa using twapLoop_orders_length ex _ _ 0 st
  · intro ex now
    have hst : (start_twap_order "BTCUSDT" "BUY" 1 5 60 now).2 =
        twapScenarioState := rfl
    rw [hst]
    exact twap_scenario_run ex

theorem twap_slicing_schedule_witness :
    (execute_twap (fun j => ExchangeResp.ok (Int.ofNat j) "NEW")
        (start_twap_order "BTCUSDT" "BUY" 1 5 60 0).2).map
      (fun run => (run.states.map TwapOrder.remaining_quantity,
                   run.subs.map Submission.quantity,
                   run.final.active)) =
    some ([4/5, 3/5, 2/5, 1/5, 0], [1/5, 1/5, 1/5, 1/5, 1/5], false) :=
  twap_slicing_schedule.2 (fun j => ExchangeResp.ok (Int.ofNat j) "NEW") 0


/-! ## Claim theorems: order placement and grid (C5-C10) -/

theorem toDigitsCore_ne_nil (b : Nat) :
    ∀ (fuel n : Nat) (ds : List Char),
      Nat.toDigitsCore b (fuel + 1) n ds ≠ [] := by
  intro fuel
  induction fuel with
  | zero =>
    intro n ds
    by_cases h : n / b = 0 <;> simp [Nat.toDigitsCore, h]
  | succ k ih =>
    intro n ds
    by_cases h : n / b = 0
    · simp [Nat.toDigitsCore, h]
    · simpa [Nat.toDigitsCore, h] using ih (n / b) ((n % b).digitChar :: ds)

theorem pyStrOfNat_ne_empty (n : Nat) : pyStrOfNat n ≠ "" := by
  unfold pyStrOfNat
  intro h
  have hd : Nat.toDigits 10 n = [] := by
    have := congrArg String.data h
    simpa using this
  exact toDigitsCore_ne_nil 10 n n [] hd

theorem pyStrOfInt_ne_empty (i : Int) : pyStrOfInt i ≠ "" := by
  cases i with
  | ofNat m => exact pyStrOfNat_ne_empty m
  | negSucc m =>
    show "-" ++ pyStrOfNat (m + 1) ≠ ""
    intro h
    have := congrArg String.data h
    simp [String.data_append] at this


/-- C7 -/
theorem order_placement_error_iff_empty_id :
    (∀ (resp : ExchangeResp) (symbol side : String) (quantity : ℚ),
       ((place_market_order resp symbol side quantity).error_message ≠ none ↔
         (place_market_order resp symbol side quantity).order_id = "")) ∧
    (∀ (resp : ExchangeResp) (symbol side : String) (quantity price : ℚ),
       ((place_limit_order resp symbol side quantity price).error_message ≠ none ↔
         (place_limit_order resp symbol side quantity price).order_id = "")) ∧
    (∀ (orderId : Int) (status symbol side : String) (quantity : ℚ),
       (place_market_order (ExchangeResp.ok orderId status)
           symbol side quantity).order_id ≠ "" ∧
       (place_market_order (ExchangeResp.ok orderId status)
           symbol side quantity).error_message = none ∧
       (place_market_order (ExchangeResp.ok orderId status)
           symbol side quantity).status = status) ∧
    (∀ (msg symbol side : String) (quantity : ℚ),
       (place_market_order (ExchangeResp.err msg)
           symbol side quantity).status = "FAILED" ∧
       (place_market_order (ExchangeResp.err msg)
           symbol side quantity).order_id = "" ∧
       (place_market_order (ExchangeResp.err msg)
           symbol side quantity).error_message = some msg) ∧
    (∀ (orderId : Int) (status symbol side : String) (quantity price : ℚ),
       (place_limit_order (ExchangeResp.ok orderId status)
           symbol side quantity price).order_id ≠ "" ∧
       (place_limit_order (ExchangeResp.ok orderId status)
           symbol side quantity price).error_message = none ∧
       (place_limit_order (ExchangeResp.ok orderId status)
           symbol side quantity price).status = status) ∧
    (∀ (msg symbol side : String) (quantity price : ℚ),
       (place_limit_order (ExchangeResp.err msg)
           symbol side quantity price).status = "FAILED" ∧
       (place_limit_order (ExchangeResp.err msg)
           symbol side quantity price).order_id = "" ∧
       (place_limit_order (ExchangeResp.err msg)
           symbol side quantity price).error_message = some msg) := by
  refine ⟨?_, ?_, ?_, ?_, ?_, ?_⟩
  · intro resp symbol side quantity
    cases resp with
    | ok orderId status =>
      simp [place_market_order, pyStrOfInt_ne_empty orderId]
    | err msg => simp [place_market_order]
  · intro resp symbol side quantity price
    cases resp with
    | ok orderId status =>
      simp [place_limit_order, pyStrOfInt_ne_empty orderId]
    | err msg => simp [place_limit_order]
  · intro orderId status symbol side quantity
    exact ⟨pyStrOfInt_ne_empty orderId, rfl, rfl⟩
  · intro msg symbol side quantity
    exact ⟨rfl, rfl, rfl⟩
  · intro orderId status symbol side quantity price
    exact ⟨pyStrOfInt_ne_empty orderId, rfl, rfl⟩
  · intro msg symbol side quantity price
    exact ⟨rfl, rfl, rfl⟩

theorem order_placement_error_iff_empty_id_witness :
    ((place_market_order (ExchangeResp.err "rejected") "BTCUSDT" "BUY" 1).error_message
        ≠ none ↔
      (place_market_order (ExchangeResp.err "rejected") "BTCUSDT" "BUY" 1).order_id
        = "") ∧
    (place_market_order (ExchangeResp.ok 42 "NEW") "BTCUSDT" "BUY" 1).order_id ≠ "" ∧
    (place_limit_order (ExchangeResp.err "rejected") "BTCUSDT" "BUY" 1 50000).status
      = "FAILED" :=
  ⟨order_placement_error_iff_empty_id.1 (ExchangeResp.err "rejected") "BTCUSDT" "BUY" 1,
   (order_placement_error_iff_empty_id.2.2.1 42 "NEW" "BTCUSDT" "BUY" 1).1,
   (order_placement_error_iff_empty_id.2.2.2.2.2 "rejected" "BTCUSDT" "BUY" 1 50000).1⟩


/-- C9 -/
theorem oco_only_limit_leg_submitted (resp : ExchangeResp)
    (symbol side : String) (quantity price stop_price stop_limit_price : ℚ)
    (active_orders : List (String × OcoMeta)) :
    (place_oco_order resp symbol side quantity price stop_price
        stop_limit_price active_orders).1 =
      place_limit_order resp symbol side quantity price ∧
    (place_oco_order resp symbol side quantity price stop_price
        stop_limit_price active_orders).2.2 =
      [limitSubmission symbol side quantity price] ∧
    (limitSubmission symbol side quantity price).otype = LIMIT ∧
    (limitSubmission symbol side quantity price).stopPrice = none ∧
    ((place_limit_order resp symbol side quantity price).status ≠ "FAILED" →
      (place_oco_order resp symbol side quantity price stop_price
          stop_limit_price active_orders).2.1 =
        active_orders ++
          [((place_limit_order resp symbol side quantity price).order_id,
            { otype := "OCO", stop_price := stop_price
              stop_limit_price := stop_limit_price, symbol := symbol
              side := side, quantity := quantity })]) ∧
    ((place_limit_order resp symbol side quantity price).status = "FAILED" →
      (place_oco_order resp symbol side quantity price stop_price
          stop_limit_price active_orders).2.1 = active_orders) := by
  refine ⟨rfl, rfl, rfl, rfl, ?_, ?_⟩
  · intro h
    simp [place_oco_order, h]
  · intro h
    simp [place_oco_order, h]

theorem oco_only_limit_leg_submitted_witness :
    (place_oco_order (ExchangeResp.ok 7 "NEW") "BTCUSDT" "SELL" 1 50000 48000
        47900 []).2.2 = [limitSubmission "BTCUSDT" "SELL" 1 50000] ∧
    (place_oco_order (ExchangeResp.ok 7 "NEW") "BTCUSDT" "SELL" 1 50000 48000
        47900 []).2.1 =
      [(pyStrOfInt 7,
        { otype := "OCO", stop_price := 48000, stop_limit_price := 47900
          symbol := "BTCUSDT", side := "SELL", quantity := 1 })] :=
  ⟨(oco_only_limit_leg_submitted (ExchangeResp.ok 7 "NEW") "BTCUSDT" "SELL"
      1 50000 48000 47900 []).2.1,
   (oco_only_limit_leg_submitted (ExchangeResp.ok 7 "NEW") "BTCUSDT" "SELL"
      1 50000 48000 47900 []).2.2.2.2.1 (by decide)⟩


theorem placeLevelOrders_kept (ex : Nat → ExchangeResp) (s sd : String)
    (qpl : ℚ) : ∀ (levels : List ℚ) (i : Nat),
    (placeLevelOrders ex s sd qpl i levels).1 =
      (levelResults ex s sd qpl i levels).filter
        (fun r => r.status ≠ "FAILED") := by
  intro levels
  induction levels with
  | nil => intro i; rfl
  | cons p rest ih =>
    intro i
    simp only [placeLevelOrders, levelResults, List.filter_cons, ih (i + 1)]
    by_cases h : (place_limit_order (ex i) s sd qpl p).status = "FAILED" <;>
      simp [h]

theorem placeLevelOrders_subs (ex : Nat → ExchangeResp) (s sd : String)
    (qpl : ℚ) : ∀ (levels : List ℚ) (i : Nat),
    (placeLevelOrders ex s sd qpl i levels).2 =
      levels.map (fun p => limitSubmission s sd qpl p) := by
  intro levels
  induction levels with
  | nil => intro i; rfl
  | cons p rest ih =>
    intro i
    simp only [placeLevelOrders, List.map_cons, ih (i + 1)]

theorem place_grid_orders_eq (ex : Nat → ExchangeResp) (g : GridOrder) :
    (place_grid_orders ex g).1.active_orders =
      g.active_orders ++
        (levelResults ex g.symbol BUY g.quantity_per_level 0
          g.buy_levels).filter (fun r => r.status ≠ "FAILED") ++
        (levelResults ex g.symbol SELL g.quantity_per_level
          g.buy_levels.length g.sell_levels).filter
            (fun r => r.status ≠ "FAILED") ∧
    (place_grid_orders ex g).2 =
      g.buy_levels.map (fun p => limitSubmission g.symbol BUY
        g.quantity_per_level p) ++
      g.sell_levels.map (fun p => limitSubmission g.symbol SELL
        g.quantity_per_level p) := by
  simp only [place_grid_orders]
  rw [placeLevelOrders_kept, placeLevelOrders_subs,
    placeLevelOrders_kept, placeLevelOrders_subs]
  exact ⟨rfl, rfl⟩

theorem place_grid_orders_levels (ex : Nat → ExchangeResp) (g : GridOrder) :
    (place_grid_orders ex g).1.buy_levels = g.buy_levels ∧
    (place_grid_orders ex g).1.sell_levels = g.sell_levels := ⟨rfl, rfl⟩

theorem gridRegistered_buy_levels (ticker : TickerResp) (symbol : String)
    (l u : ℚ) (n : Int) (qpl : ℚ) :
    (gridRegistered ticker symbol l u n qpl).buy_levels =
      (gridLevelPrices l (price_step l u n) n).filter
        (fun p => p < get_current_price ticker) := by
  simp [gridRegistered]

theorem gridRegistered_sell_levels (ticker : TickerResp) (symbol : String)
    (l u : ℚ) (n : Int) (qpl : ℚ) :
    (gridRegistered ticker symbol l u n qpl).sell_levels =
      (gridLevelPrices l (price_step l u n) n).filter
        (fun p => ¬ p < get_current_price ticker) := by
  simp only [gridRegistered, List.partition_eq_filter_filter]
  refine List.filter_congr ?_
  intro p hp
  show (!decide (p < get_current_price ticker)) =
    decide (¬ p < get_current_price ticker)
  rw [decide_not]

theorem start_grid_strategy_eq (ticker : TickerResp)
    (ex : Nat → ExchangeResp) (symbol : String) (l u : ℚ) (n : Int)
    (qpl : ℚ) (now : Int) (hn : n ≠ 1) :
    start_grid_strategy ticker ex symbol l u n qpl now =
      some ("grid_" ++ symbol ++ "_" ++ pyStrOfInt now,
        (place_grid_orders ex (gridRegistered ticker symbol l u n qpl)).1,
        (place_grid_orders ex (gridRegistered ticker symbol l u n qpl)).2) := by
  simp [start_grid_strategy, hn]

theorem gridLevelPrices_length (l step : ℚ) (n : Int) :
    (gridLevelPrices l step n).length = n.toNat := by
  simp [gridLevelPrices]

theorem gridLevelPrices_get (l step : ℚ) (n : Int) (j : Nat)
    (h : j < (gridLevelPrices l step n).length) :
    (gridLevelPrices l step n).get ⟨j, h⟩ = l + (j : ℚ) * step := by
  simp [gridLevelPrices]

theorem gridLevelPrices_mem (l step : ℚ) (n : Int) (p : ℚ)
    (h : p ∈ gridLevelPrices l step n) :
    ∃ j : Nat, j < n.toNat ∧ p = l + (j : ℚ) * step := by
  simp only [gridLevelPrices, List.mem_map, List.mem_range] at h
  obtain ⟨j, hj, rfl⟩ := h
  exact ⟨j, hj, rfl⟩


theorem price_step_pos (l u : ℚ) (n : Int) (hn : 2 ≤ n) (hlu : l < u) :
    0 < price_step l u n := by
  have h1 : (1 : Int) ≤ n - 1 := by omega
  have h2 : (1 : ℚ) ≤ ((n - 1 : Int) : ℚ) := by exact_mod_cast h1
  exact div_pos (by linarith) (by linarith)

theorem gridLevelPrices_cancel (l u : ℚ) (n : Int) (hn : 2 ≤ n) :
    ((n - 1 : Int) : ℚ) * price_step l u n = u - l := by
  have h1 : (1 : Int) ≤ n - 1 := by omega
  have h2 : (1 : ℚ) ≤ ((n - 1 : Int) : ℚ) := by exact_mod_cast h1
  have h0 : ((n - 1 : Int) : ℚ) ≠ 0 := by linarith
  unfold price_step
  field_simp
  push_cast at h0
  exact mul_div_cancel_left₀ _ h0

theorem gridLevelPrices_bounds (l u : ℚ) (n : Int) (hn : 2 ≤ n)
    (hlu : l < u) :
    ∀ p ∈ gridLevelPrices l (price_step l u n) n, l ≤ p ∧ p ≤ u := by
  intro p hp
  obtain ⟨j, hj, rfl⟩ := gridLevelPrices_mem l (price_step l u n) n p hp
  have hstep := price_step_pos l u n hn hlu
  constructor
  · have : (0 : ℚ) ≤ (j : ℚ) * price_step l u n :=
      mul_nonneg (Nat.cast_nonneg j) hstep.le
    linarith
  · have hjn : (j : Int) < n := by
      have := Int.toNat_of_nonneg (by omega : (0 : Int) ≤ n)
      omega
    have hjq : (j : ℚ) ≤ ((n - 1 : Int) : ℚ) := by
      have : (j : Int) ≤ n - 1 := by omega
      exact_mod_cast this
    have hmul : (j : ℚ) * price_step l u n ≤
        ((n - 1 : Int) : ℚ) * price_step l u n :=
      mul_le_mul_of_nonneg_right hjq hstep.le
    have hc := gridLevelPrices_cancel l u n hn
    linarith

/-- C6 -/
theorem grid_levels_evenly_spaced (l u : ℚ) (n : Int) (hn : 2 ≤ n)
    (hlu : l < u) :
    (gridLevelPrices l (price_step l u n) n).length = n.toNat ∧
    (∀ (j : Nat) (h : j < (gridLevelPrices l (price_step l u n) n).length),
       (gridLevelPrices l (price_step l u n) n).get ⟨j, h⟩ =
         l + (j : ℚ) * price_step l u n) ∧
    (∀ p ∈ gridLevelPrices l (price_step l u n) n, l ≤ p ∧ p ≤ u) ∧
    (∀ (j : Nat) (h : j + 1 < (gridLevelPrices l (price_step l u n) n).length),
       (gridLevelPrices l (price_step l u n) n).get ⟨j + 1, h⟩ -
         (gridLevelPrices l (price_step l u n) n).get
           ⟨j, Nat.lt_of_succ_lt h⟩ = price_step l u n ∧
       (gridLevelPrices l (price_step l u n) n).get
           ⟨j, Nat.lt_of_succ_lt h⟩ <
         (gridLevelPrices l (price_step l u n) n).get ⟨j + 1, h⟩) := by
  have hstep := price_step_pos l u n hn hlu
  refine ⟨gridLevelPrices_length l (price_step l u n) n, ?_,
    gridLevelPrices_bounds l u n hn hlu, ?_⟩
  · intro j h
    exact gridLevelPrices_get l (price_step l u n) n j h
  · intro j h
    rw [gridLevelPrices_get, gridLevelPrices_get]
    constructor
    · push_cast
      ring
    · push_cast
      nlinarith

theorem grid_levels_evenly_spaced_witness :
    (2 : Int) ≤ 5 ∧ (1800 : ℚ) < 2200 ∧
    (gridLevelPrices 1800 (price_step 1800 2200 5) 5).length = (5 : Int).toNat ∧
    ((1800 : ℚ) ≤ 1900 ∧ (1900 : ℚ) ≤ 2200) := by
  refine ⟨by decide, by norm_num,
    (grid_levels_evenly_spaced 1800 2200 5 (by decide) (by norm_num)).1,
    (grid_levels_evenly_spaced 1800 2200 5 (by decide) (by norm_num)).2.2.1
      1900 ?_⟩
  simp only [gridLevelPrices, price_step, List.mem_map, List.mem_range]
  refine ⟨1, by norm_num, by push_cast; norm_num⟩

/-- C5 -/
theorem grid_buy_sell_classification :
    (∀ (ticker : TickerResp) (ex : Nat → ExchangeResp) (symbol : String)
       (l u : ℚ) (n : Int) (qpl : ℚ) (now : Int), n ≠ 1 →
       ((start_grid_strategy ticker ex symbol l u n qpl now).map
         (fun r => (r.2.1.buy_levels, r.2.1.sell_levels))) =
       some ((gridLevelPrices l (price_step l u n) n).filter
               (fun p => p < get_current_price ticker),
             (gridLevelPrices l (price_step l u n) n).filter
               (fun p => ¬ p < get_current_price ticker))) ∧
    (∀ (cp : ℚ) (levels : List ℚ) (p : ℚ),
       (p ∈ levels.filter (fun q => q < cp) → p < cp) ∧
       (p ∈ levels.filter (fun q => ¬ q < cp) → cp ≤ p) ∧
       (p ∈ levels ↔ (p ∈ levels.filter (fun q => q < cp) ∨
          p ∈ levels.filter (fun q => ¬ q < cp))) ∧
       ¬ (p ∈ levels.filter (fun q => q < cp) ∧
          p ∈ levels.filter (fun q => ¬ q < cp))) := by
  constructor
  · intro ticker ex symbol l u n qpl now hn
    rw [start_grid_strategy_eq ticker ex symbol l u n qpl now hn]
    show some _ = some _
    rw [Option.some.injEq]
    refine Prod.ext ?_ ?_
    · show (gridRegistered ticker symbol l u n qpl).buy_levels = _
      exact gridRegistered_buy_levels ticker symbol l u n qpl
    · show (gridRegistered ticker symbol l u n qpl).sell_levels = _
      exact gridRegistered_sell_levels ticker symbol l u n qpl
  · intro cp levels p
    refine ⟨?_, ?_, ?_, ?_⟩
    · intro h
      simp only [List.mem_filter, decide_eq_true_eq] at h
      exact h.2
    · intro h
      simp only [List.mem_filter, decide_eq_true_eq] at h
      exact not_lt.mp h.2
    · by_cases hp : p < cp
      · simp [List.mem_filter, hp]
      · simp [List.mem_filter, hp]
        exact fun _ => not_lt.mp hp
    · intro h
      obtain ⟨h1, h2⟩ := h
      simp only [List.mem_filter, decide_eq_true_eq] at h1 h2
      exact h2.2 h1.2

theorem grid_buy_sell_classification_witness :
    ((start_grid_strategy (TickerResp.ok 2000)
        (fun i => ExchangeResp.ok (Int.ofNat i) "NEW")
        "ETHUSDT" 1800 2200 5 (1/10) 0).map
      (fun r => (r.2.1.buy_levels, r.2.1.sell_levels))) =
    some ([1800, 1900], [2000, 2100, 2200]) := by
  rw [grid_buy_sell_classification.1 (TickerResp.ok 2000)
    (fun i => ExchangeResp.ok (Int.ofNat i) "NEW")
    "ETHUSDT" 1800 2200 5 (1/10) 0 (by decide)]
  with_unfolding_all rfl

/-- C10 -/
theorem failed_price_query_grid_all_sell (msg : String)
    (ex : Nat → ExchangeResp) (symbol : String) (l u : ℚ) (n : Int)
    (qpl : ℚ) (now : Int) (hn : 2 ≤ n) (hl : 0 < l) (hlu : l < u) :
    get_current_price (TickerResp.err msg) = 0 ∧
    ((start_grid_strategy (TickerResp.err msg) ex symbol l u n qpl now).map
      (fun r => (r.2.1.buy_levels, r.2.1.sell_levels))) =
    some ([], gridLevelPrices l (price_step l u n) n) := by
  refine ⟨rfl, ?_⟩
  have hb := gridLevelPrices_bounds l u n hn hlu
  rw [start_grid_strategy_eq (TickerResp.err msg) ex symbol l u n qpl now
    (by omega)]
  show some _ = some _
  rw [Option.some.injEq]
  refine Prod.ext ?_ ?_
  · show (gridRegistered (TickerResp.err msg) symbol l u n qpl).buy_levels = _
    rw [gridRegistered_buy_levels]
    refine List.filter_eq_nil_iff.mpr ?_
    intro p hp
    have := (hb p hp).1
    simp only [get_current_price, decide_eq_true_eq]
    intro hcon
    linarith
  · show (gridRegistered (TickerResp.err msg) symbol l u n qpl).sell_levels = _
    rw [gridRegistered_sell_levels]
    refine List.filter_eq_self.mpr ?_
    intro p hp
    have := (hb p hp).1
    simp only [get_current_price, decide_eq_true_eq]
    intro hcon
    linarith

theorem failed_price_query_grid_all_sell_witness :
    ((start_grid_strategy (TickerResp.err "connection error")
        (fun i => ExchangeResp.ok (Int.ofNat i) "NEW")
        "ETHUSDT" 1800 2200 5 (1/10) 0).map
      (fun r => (r.2.1.buy_levels, r.2.1.sell_levels))) =
    some ([], [1800, 1900, 2000, 2100, 2200]) := by
  have h := (failed_price_query_grid_all_sell "connection error"
    (fun i => ExchangeResp.ok (Int.ofNat i) "NEW")
    "ETHUSDT" 1800 2200 5 (1/10) 0 (by decide) (by norm_num) (by norm_num)).2
  rw [h]
  with_unfolding_all rfl

/-- C8 amended -/
theorem grid_failed_level_skipped :
    (∀ (ex : Nat → ExchangeResp) (s sd : String) (qpl : ℚ) (i : Nat)
       (levels : List ℚ),
       (placeLevelOrders ex s sd qpl i levels).1 =
         (levelResults ex s sd qpl i levels).filter
           (fun r => r.status ≠ "FAILED") ∧
       (placeLevelOrders ex s sd qpl i levels).2 =
         levels.map (fun p => limitSubmission s sd qpl p)) ∧
    (∀ (ex : Nat → ExchangeResp) (g : GridOrder),
       (place_grid_orders ex g).1.active_orders =
         g.active_orders ++
           (levelResults ex g.symbol BUY g.quantity_per_level 0
             g.buy_levels).filter (fun r => r.status ≠ "FAILED") ++
           (levelResults ex g.symbol SELL g.quantity_per_level
             g.buy_levels.length g.sell_levels).filter
               (fun r => r.status ≠ "FAILED") ∧
       (place_grid_orders ex g).2 =
         g.buy_levels.map (fun p => limitSubmission g.symbol BUY
           g.quantity_per_level p) ++
         g.sell_levels.map (fun p => limitSubmission g.symbol SELL
           g.quantity_per_level p)) := by
  constructor
  · intro ex s sd qpl i levels
    exact ⟨placeLevelOrders_kept ex s sd qpl levels i,
           placeLevelOrders_subs ex s sd qpl levels i⟩
  · intro ex g
    exact place_grid_orders_eq ex g

/-- C8 counterexample -/
theorem grid_failed_level_not_recorded :
    ((start_grid_strategy (TickerResp.ok 2000)
        (fun i => if i = 0 then ExchangeResp.err "rejected"
                  else ExchangeResp.ok (Int.ofNat i) "NEW")
        "ETHUSDT" 1800 2200 5 (1/10) 0).map
      (fun r => (r.2.1.active_orders.map OrderResult.price,
                 (r.2.1.active_orders.filter
                   (fun o => o.status = "FAILED")).length,
                 r.2.2.length))) =
    some ([some 1900, some 2000, some 2100, some 2200], 0, 5) ∧
    (place_limit_order (ExchangeResp.err "rejected") "ETHUSDT" "BUY"
      (1/10) 1800).status = "FAILED" := by
  constructor
  · with_unfolding_all rfl
  · rfl


end TradingBot
